import Mathlib

/-!
Verification development for the RCA knowledge-base backend
(`backend/rca_agent.py`).  The Python code is shallowly embedded:

* SQLite tables become Lean lists of records; `AUTOINCREMENT` ids become an
  explicit `next id` counter; timestamps (`datetime.now().isoformat()`)
  become an abstract monotone clock value of type `Nat` passed in as `now`.
* JSON-encoded list columns (`problems`, `solutions`, ...) are written with
  `json.dumps` and read back with `json.loads`; the round trip is the
  identity, so they are modelled directly as `List String`.
* The LLM, GCS and ChromaDB collaborators are oracles passed as function
  parameters; injected `Bool` faults model storage-engine exceptions.
* Python floats are modelled as rationals; `round(x, 2)` is modelled with
  Mathlib's integer rounding.
-/

/-- One row of the `rca_documents` table (schema in `init_database`). -/
structure RcaDoc where
  id : Nat
  filename : String
  gcs_path : String
  project_name : String
  problems : List String
  solutions : List String
  root_causes : List String
  lessons_learned : List String
  full_content : String
  file_hash : String
  created_at : Nat
  updated_at : Nat
deriving Repr, DecidableEq

/-- One row of the `chat_sessions` table. -/
structure ChatSession where
  id : String
  title : String
  created_at : Nat
  updated_at : Nat
deriving Repr, DecidableEq

/-- One row of the `chat_messages` table; `matched_rcas` keeps the JSON
payload as stored (`NULL` = `none`). -/
structure ChatMessage where
  id : Nat
  session_id : String
  message_type : String
  content : String
  matched_rcas : Option String
  timestamp : Nat
deriving Repr, DecidableEq

/-- The chat part of the SQLite database. -/
structure ChatKB where
  sessions : List ChatSession
  messages : List ChatMessage
  nextMsgId : Nat
deriving Repr, DecidableEq

/-- `round(x, 2)` of Python, over rationals. -/
def round2 (q : ℚ) : ℚ := ((round (q * 100) : ℤ) : ℚ) / 100

/-- `max(0, (1 - distances[i])) * 100` followed by `round(., 2)`
(`search_similar_problems`, the score computation). -/
def similarity_score (distance : ℚ) : ℚ := round2 (max 0 (1 - distance) * 100)

/-- One nearest-neighbour hit as reported by the ChromaDB query: a document
id (the code stores `str(doc_id)` and parses it back with `int`, a lossless
round trip, so the id is kept as `Nat`) together with its raw distance. -/
structure IndexHit where
  doc_id : Nat
  distance : ℚ
deriving Repr, DecidableEq

/-- One element of the list built by `search_similar_problems`. -/
structure SimilarRca where
  rca_id : Nat
  filename : String
  project_name : String
  problems : List String
  solutions : List String
  root_causes : List String
  similarity_score : ℚ
deriving Repr, DecidableEq

/-- `search_similar_problems` after the embedding / index query: `hits` is
what `collection.query` returned (already ranked by the index).  The code
batch-fetches the rows whose id is among the hit ids into `rca_map` and then
walks the hit list in order, keeping a hit only when its row was found;
that is a `filterMap` over the hits with a lookup into the document table. -/
def search_similar_problems (docs : List RcaDoc) (hits : List IndexHit) :
    List SimilarRca :=
  hits.filterMap (fun h =>
    (docs.find? (fun x => x.id == h.doc_id)).map (fun x =>
      SimilarRca.mk x.id x.filename x.project_name x.problems x.solutions
        x.root_causes (similarity_score h.distance)))

/-- Decides whether `pre` is an initial segment of `l`. -/
def listIsPre : List Char → List Char → Bool
  | [], _ => true
  | _ :: _, [] => false
  | a :: as, b :: bs => a == b && listIsPre as bs

/-- Decides whether `needle` occurs as a contiguous segment of `l`
(Python's `in` on strings). -/
def occursIn (needle : List Char) : List Char → Bool
  | [] => listIsPre needle []
  | c :: cs => listIsPre needle (c :: cs) || occursIn needle cs

/-- Python `needle in haystack` for strings. -/
def containsSub (needle haystack : String) : Bool :=
  occursIn needle.data haystack.data

/-- Python `str.lower()` (ASCII case folding suffices for the label). -/
def pyLower (s : String) : String := String.mk (s.data.map Char.toLower)

/-- Drops leading whitespace characters. -/
def dropLeadingWs : List Char → List Char
  | [] => []
  | c :: cs => if c.isWhitespace then dropLeadingWs cs else c :: cs

/-- Python `str.strip()`: removes whitespace at both ends. -/
def pyStrip (s : String) : String :=
  String.mk ((dropLeadingWs (dropLeadingWs s.data).reverse).reverse)

/-- `get_query_intent`: the classification prompt is sent to the model;
the argument is the outcome of `self.model.generate_content` (`Except.error`
when the call raises).  The code lower-cases and strips the response text
(`response.text.lower().strip()`) and does a permissive substring test. -/
def get_query_intent (modelResponse : Except String String) : String :=
  match modelResponse with
  | Except.error _ => "general_knowledge_query"
  | Except.ok t =>
      if containsSub "technical_problem_solving" (pyStrip (pyLower t)) then
        "technical_problem_solving"
      else
        "general_knowledge_query"

/-- The fixed message returned by `generate_solution_recommendation` when no
similar RCAs were retrieved. -/
def noSimilarMsg : String :=
  "No similar problems were found in the knowledge base. The knowledge base may need to be synced or expanded."

/-- The recommendation prompt built from the ranked incidents (header, one
block per incident in rank order, instruction tail).  The literal prose of
the prompt is abbreviated to structural markers; the claims depend only on
whether the model is invoked, not on the prose. -/
def recommendationPrompt (current_problem : String)
    (similar_rcas : List SimilarRca) : String :=
  let blocks := similar_rcas.map (fun r =>
    "Incident " ++ r.filename ++ " " ++ r.project_name ++ " " ++
    String.intercalate "; " r.problems ++ " " ++
    String.intercalate "; " r.root_causes ++ " " ++
    String.intercalate "; " r.solutions)
  "SRE prompt " ++ current_problem ++ " " ++
    String.intercalate " " blocks ++ " instructions"

/-- `generate_solution_recommendation`: `generate` is the model oracle; the
second component records whether `self.model.generate_content` was called. -/
def generate_solution_recommendation (generate : String → String)
    (current_problem : String) (similar_rcas : List SimilarRca) :
    String × Bool :=
  if similar_rcas.isEmpty then
    (noSimilarMsg, false)
  else
    (generate (recommendationPrompt current_problem similar_rcas), true)

/-- `delete_chat_session`: runs `DELETE FROM chat_sessions WHERE id = ?`.
The connection is a stock `sqlite3.connect` one: the `foreign_keys` pragma is
at its SQLite default (off) and the code never issues
`PRAGMA foreign_keys = ON`, so the declared `ON DELETE CASCADE` on
`chat_messages.session_id` is not enforced and no message row is touched. -/
def delete_chat_session (kb : ChatKB) (session_id : String) : ChatKB :=
  { kb with sessions := kb.sessions.filter (fun s => s.id != session_id) }

/-- The `UPDATE chat_sessions SET updated_at = ? WHERE id = ?` statement of
`add_chat_message`. -/
def touchSession (sessions : List ChatSession) (session_id : String)
    (now : Nat) : List ChatSession :=
  sessions.map (fun s =>
    if s.id == session_id then { s with updated_at := now } else s)

/-- The transaction body of `add_chat_message`: the `INSERT INTO
chat_messages` statement (foreign keys are not enforced, see
`delete_chat_session`, so the insert succeeds for any `session_id`)
followed by the `updated_at` bump of the owning session. -/
def add_chat_message_body (kb : ChatKB) (session_id message_type content
    : String) (matched_rcas : Option String) (now : Nat) : ChatKB :=
  { sessions := touchSession kb.sessions session_id now,
    messages := kb.messages ++
      [ChatMessage.mk kb.nextMsgId session_id message_type content
        matched_rcas now],
    nextMsgId := kb.nextMsgId + 1 }

/-- `add_chat_message`: both statements and the final `conn.commit()` run
inside one `with sqlite3.connect(...)` block, which commits on normal exit
and rolls back when the body raises.  `storeFault` injects a storage-engine
exception anywhere in the body; in that case nothing is committed, which the
model renders by returning `Except.error` with no new state. -/
def add_chat_message (storeFault : Bool) (kb : ChatKB)
    (session_id message_type content : String)
    (matched_rcas : Option String) (now : Nat) : Except String ChatKB :=
  if storeFault then
    Except.error "storage failure: transaction rolled back"
  else
    Except.ok (add_chat_message_body kb session_id message_type content
      matched_rcas now)

/-- Structured record extracted by the LLM in
`extract_rca_content_from_bytes`. -/
structure ExtractedData where
  project_name : String
  problems : List String
  solutions : List String
  root_causes : List String
  lessons_learned : List String
deriving Repr, DecidableEq

/-- Successful result of `extract_rca_content_from_bytes`. -/
structure RcaData where
  filename : String
  full_content : String
  extracted_data : ExtractedData
deriving Repr, DecidableEq

/-- One GCS blob as seen by `sync_gcs_files` (`blob.name`,
`blob.md5_hash`). -/
structure Blob where
  name : String
  md5_hash : String
deriving Repr, DecidableEq

/-- `os.path.basename`: the part of the path after the last slash. -/
def basename (s : String) : String :=
  String.mk (s.data.foldl (fun acc c => if c == '/' then [] else acc ++ [c]) [])

/-- One entry of the ChromaDB collection: the embedding plus the metadata
shadow copy, keyed by the document id (stored as `str(doc_id)`, a lossless
encoding of the id). -/
structure VecEntry where
  doc_id : Nat
  embedding : List ℚ
  filename : String
  project_name : String
deriving Repr, DecidableEq

/-- `collection.upsert`: replaces any prior entry for the id, otherwise
appends. -/
def indexUpsert (index : List VecEntry) (e : VecEntry) : List VecEntry :=
  if index.any (fun x => x.doc_id == e.doc_id) then
    index.map (fun x => if x.doc_id == e.doc_id then e else x)
  else
    index ++ [e]

/-- The counters returned by `sync_gcs_files`. -/
structure Stats where
  processed : Nat
  updated : Nat
  skipped : Nat
  errors : Nat
deriving Repr, DecidableEq

def bumpProcessed (s : Stats) : Stats := { s with processed := s.processed + 1 }

def bumpUpdated (s : Stats) : Stats := { s with updated := s.updated + 1 }

def bumpSkipped (s : Stats) : Stats := { s with skipped := s.skipped + 1 }

def bumpErrors (s : Stats) : Stats := { s with errors := s.errors + 1 }

/-- External collaborators of a sync run.  `extract` is the composite of
`blob.download_as_bytes()` and `extract_rca_content_from_bytes` (`none` means
a download/decode/parse failure, which the source maps to `None` or to an
exception caught by the per-document handler).  `storeFailsAt` injects a
storage-engine exception raised by the SQL upsert while persisting that
blob's document; `loadFails` injects one raised by the initial
`SELECT filename, file_hash` snapshot query. -/
structure SyncEnv where
  extract : Blob → Option RcaData
  embed : String → List ℚ
  storeFailsAt : Blob → Bool
  loadFails : Bool

/-- Mutable state of a sync run: the `rca_documents` table with its id
counter, the vector index, the running counters, and logs of which filenames
the extractor and the embedding model were invoked for. -/
structure SyncState where
  docs : List RcaDoc
  nextDocId : Nat
  index : List VecEntry
  stats : Stats
  extractCalls : List String
  embedCalls : List String
deriving Repr, DecidableEq

/-- The values bound in the upsert statement of `sync_gcs_files` (everything
except the store-assigned `id` and the timestamps). -/
structure DocRow where
  filename : String
  gcs_path : String
  project_name : String
  problems : List String
  solutions : List String
  root_causes : List String
  lessons_learned : List String
  full_content : String
  file_hash : String
deriving Repr, DecidableEq

/-- The `ON CONFLICT(filename) DO UPDATE SET` arm of the upsert: exactly
`gcs_path`, `project_name`, `problems`, `solutions`, `root_causes`,
`lessons_learned`, `full_content`, `file_hash` and `updated_at` are
overwritten; `id`, `filename` and `created_at` keep the old row's values. -/
def applyRow (d : RcaDoc) (r : DocRow) (now : Nat) : RcaDoc :=
  { d with
    gcs_path := r.gcs_path,
    project_name := r.project_name,
    problems := r.problems,
    solutions := r.solutions,
    root_causes := r.root_causes,
    lessons_learned := r.lessons_learned,
    full_content := r.full_content,
    file_hash := r.file_hash,
    updated_at := now }

/-- The `INSERT ... ON CONFLICT(filename) DO UPDATE` of `sync_gcs_files`:
a fresh row takes the next `AUTOINCREMENT` id with `created_at = updated_at
= now`; a conflicting filename updates the existing row per `applyRow`. -/
def upsertDocument (docs : List RcaDoc) (nextId : Nat) (r : DocRow)
    (now : Nat) : List RcaDoc × Nat :=
  if docs.any (fun d => d.filename == r.filename) then
    (docs.map (fun d =>
      if d.filename == r.filename then applyRow d r now else d), nextId)
  else
    (docs ++
      [RcaDoc.mk nextId r.filename r.gcs_path r.project_name r.problems
        r.solutions r.root_causes r.lessons_learned r.full_content
        r.file_hash now now], nextId + 1)

/-- The row values the sync loop binds for one blob. -/
def rowOfData (blob : Blob) (filename : String) (rd : RcaData) : DocRow :=
  DocRow.mk filename blob.name rd.extracted_data.project_name
    rd.extracted_data.problems rd.extracted_data.solutions
    rd.extracted_data.root_causes rd.extracted_data.lessons_learned
    rd.full_content blob.md5_hash

/-- The composite `embedding_text` string built before the embedding call. -/
def embedding_text (ed : ExtractedData) : String :=
  "Project: " ++ ed.project_name ++
  "\nProblems: " ++ String.intercalate ", " ed.problems ++
  "\nRoot Causes: " ++ String.intercalate ", " ed.root_causes ++
  "\nSolutions: " ++ String.intercalate ", " ed.solutions

/-- Python dict lookup on the `existing_files` map (`filename ->
file_hash`). -/
def lookupHash (m : List (String × String)) (k : String) : Option String :=
  (m.find? (fun p => p.1 == k)).map (fun p => p.2)

/-- The success path of the per-document `try` body after extraction: SQL
upsert and commit, re-read of the row id by filename, embedding call, and
vector-index upsert, then the `updated` / `processed` classification. -/
def persistDoc (env : SyncEnv) (existing : List (String × String))
    (now : Nat) (st : SyncState) (filename : String) (rd : RcaData)
    (blob : Blob) : SyncState :=
  let pr := upsertDocument st.docs st.nextDocId (rowOfData blob filename rd) now
  let doc_id := (((pr.1.find? (fun d => d.filename == filename))).map
    (fun d => d.id)).getD 0
  let emb := env.embed (embedding_text rd.extracted_data)
  { docs := pr.1,
    nextDocId := pr.2,
    index := indexUpsert st.index
      (VecEntry.mk doc_id emb filename rd.extracted_data.project_name),
    stats := if existing.any (fun p => p.1 == filename) then
        bumpUpdated st.stats
      else
        bumpProcessed st.stats,
    extractCalls := st.extractCalls ++ [filename],
    embedCalls := st.embedCalls ++ [filename] }

/-- One iteration of the `for blob in gcs_blobs` loop.  The hash check
against the start-of-run snapshot skips unchanged files before any download
or extraction.  Otherwise the `try` body runs; an extraction failure
(`rca_data` falsy) and any exception — including a storage-engine error
raised by the SQL upsert — are both handled per document by bumping
`errors` and moving on (`except Exception` around the whole body). -/
def syncStep (env : SyncEnv) (existing : List (String × String))
    (now : Nat) (st : SyncState) (blob : Blob) : SyncState :=
  let filename := basename blob.name
  if lookupHash existing filename = some blob.md5_hash then
    { st with stats := bumpSkipped st.stats }
  else
    match env.extract blob with
    | none =>
        { st with stats := bumpErrors st.stats,
                  extractCalls := st.extractCalls ++ [filename] }
    | some rd =>
        if env.storeFailsAt blob then
          { st with stats := bumpErrors st.stats,
                    extractCalls := st.extractCalls ++ [filename] }
        else
          persistDoc env existing now st filename rd blob

/-- The snapshot map loaded once at the start of the run
(`SELECT filename, file_hash FROM rca_documents`). -/
def existingOf (docs : List RcaDoc) : List (String × String) :=
  docs.map (fun d => (d.filename, d.file_hash))

/-- `sync_gcs_files`: the snapshot query runs outside any try/except, so a
store failure there propagates to the caller; the per-blob loop is the fold
of `syncStep`. -/
def sync_gcs_files (env : SyncEnv) (now : Nat) (blobs : List Blob)
    (docs : List RcaDoc) (nextDocId : Nat) (index : List VecEntry) :
    Except String SyncState :=
  if env.loadFails then
    Except.error "store error while loading the filename-hash snapshot"
  else
    Except.ok (blobs.foldl (syncStep env (existingOf docs) now)
      (SyncState.mk docs nextDocId index (Stats.mk 0 0 0 0) [] []))


/-! Concrete fixtures used by counterexamples and witnesses. -/

/-- A fixed successful extraction result. -/
def rdFix : RcaData :=
  RcaData.mk "b.txt" "content b"
    (ExtractedData.mk "projB" ["p1"] ["s1"] ["r1"] ["l1"])

/-- Blob whose persistence will hit an injected store failure. -/
def blobA : Blob := Blob.mk "a.txt" "ha"

/-- Blob that syncs normally. -/
def blobB : Blob := Blob.mk "b.txt" "hb"

/-- Environment where the store raises while persisting `blobA`'s document
and everything else succeeds. -/
def envC2 : SyncEnv :=
  SyncEnv.mk (fun _ => some rdFix) (fun _ => [1, 0])
    (fun b => b.name == "a.txt") false

/-- Environment where the initial snapshot query raises and the per-blob
store never does. -/
def envLoadFail : SyncEnv :=
  SyncEnv.mk (fun _ => some rdFix) (fun _ => [1, 0]) (fun _ => false) true

/-- A chat database with one session owning one message. -/
def kbFix : ChatKB :=
  ChatKB.mk [ChatSession.mk "s1" "t" 0 0]
    [ChatMessage.mk 1 "s1" "user" "hello" none 0] 2

/-- An empty sync state. -/
def stFix : SyncState := SyncState.mk [] 1 [] (Stats.mk 0 0 0 0) [] []

/-- A one-document table whose stored hash matches `blobB`. -/
def docB : RcaDoc :=
  RcaDoc.mk 1 "b.txt" "b.txt" "projB" ["p1"] ["s1"] ["r1"] ["l1"]
    "content b" "hb" 3 3

/-- A stored document for `blobA`'s filename with a stale hash. -/
def docA : RcaDoc :=
  RcaDoc.mk 4 "a.txt" "a.txt" "projA" ["p0"] ["s0"] ["r0"] ["l0"]
    "content a" "old" 2 2

/-! Helper lemmas. -/

theorem round2_mono {x y : ℚ} (h : x ≤ y) : round2 x ≤ round2 y := by
  unfold round2
  have hr : round (x * 100) ≤ round (y * 100) := by
    rw [round_eq, round_eq]
    exact Int.floor_le_floor (by linarith)
  have hq : ((round (x * 100) : ℤ) : ℚ) ≤ ((round (y * 100) : ℤ) : ℚ) :=
    Int.cast_le.mpr hr
  linarith

theorem round2_zero : round2 0 = 0 := by
  unfold round2
  norm_num

theorem round2_hundred : round2 100 = 100 := by
  unfold round2
  have h : ((100 : ℚ) * 100) = ((10000 : ℤ) : ℚ) := by norm_num
  rw [h, round_intCast]
  norm_num

theorem filterMap_map_sublist {α β γ : Type _} (f : α → Option β) (g : β → γ)
    (gh : α → γ) (hc : ∀ a b, f a = some b → g b = gh a) :
    ∀ l : List α, List.Sublist ((l.filterMap f).map g) (l.map gh)
  | [] => by simp
  | a :: l => by
    rw [List.map_cons]
    cases hfa : f a with
    | none =>
        rw [List.filterMap_cons_none hfa]
        exact List.Sublist.cons (gh a) (filterMap_map_sublist f g gh hc l)
    | some b =>
        rw [List.filterMap_cons_some hfa, List.map_cons, hc a b hfa]
        exact List.Sublist.cons₂ (gh a) (filterMap_map_sublist f g gh hc l)

/-! Claim theorems. -/

/-- C4: for every index-reported distance `d` (nonnegative, as the default
squared-L2 ChromaDB space reports), the computed `similarity_score` equals
`max(0, 1 - d) * 100` rounded to 2 decimals; it lies in `[0, 100]`, is
monotonically non-increasing in the distance, is exactly `0` whenever
`d ≥ 1`, and every score surfaced by `search_similar_problems` is of this
form for one of the reported distances. -/
theorem c4_similarity_score_spec (d d₁ d₂ : ℚ) (hd : 0 ≤ d) (h12 : d₁ ≤ d₂) :
    similarity_score d = round2 (max 0 (1 - d) * 100) ∧
    0 ≤ similarity_score d ∧ similarity_score d ≤ 100 ∧
    similarity_score d₂ ≤ similarity_score d₁ ∧
    (1 ≤ d → similarity_score d = 0) ∧
    (∀ docs hits r, r ∈ search_similar_problems docs hits →
      ∃ h, h ∈ hits ∧ r.similarity_score = similarity_score h.distance) := by
  have hmono : ∀ x y : ℚ, x ≤ y → similarity_score y ≤ similarity_score x := by
    intro x y hxy
    unfold similarity_score
    apply round2_mono
    have : max 0 (1 - y) ≤ max 0 (1 - x) :=
      max_le_max le_rfl (by linarith)
    nlinarith [this]
  refine ⟨rfl, ?_, ?_, hmono d₁ d₂ h12, ?_, ?_⟩
  · unfold similarity_score
    have h0 : (0 : ℚ) ≤ max 0 (1 - d) * 100 := by positivity
    calc (0 : ℚ) = round2 0 := round2_zero.symm
    _ ≤ round2 (max 0 (1 - d) * 100) := round2_mono h0
  · unfold similarity_score
    have h1 : max 0 (1 - d) ≤ 1 := max_le (by norm_num) (by linarith)
    have h100 : max 0 (1 - d) * 100 ≤ 100 := by nlinarith
    calc round2 (max 0 (1 - d) * 100) ≤ round2 100 := round2_mono h100
    _ = 100 := round2_hundred
  · intro h1
    unfold similarity_score
    have hm : max 0 (1 - d) = 0 := max_eq_left (by linarith)
    rw [hm, zero_mul, round2_zero]
  · intro docs hits r hr
    rcases List.mem_filterMap.mp hr with ⟨h, hh, hfh⟩
    rcases Option.map_eq_some'.mp hfh with ⟨x, _, hmk⟩
    exact ⟨h, hh, by rw [← hmk]⟩

/-- Witness for C4 at concrete inputs. -/
theorem c4_similarity_score_spec_witness :
    (0 : ℚ) ≤ (1 : ℚ) / 4 ∧ (1 : ℚ) / 4 ≤ (3 : ℚ) / 4 ∧
    similarity_score ((3 : ℚ) / 4) ≤ similarity_score ((1 : ℚ) / 4) ∧
    similarity_score ((3 : ℚ) / 2) = 0 := by
  have h := c4_similarity_score_spec ((3 : ℚ) / 2) ((1 : ℚ) / 4) ((3 : ℚ) / 4)
    (by norm_num) (by norm_num)
  exact ⟨by norm_num, by norm_num, h.2.2.2.1, h.2.2.2.2.1 (by norm_num)⟩

/-- C5: `search_similar_problems` returns at most `top_n` results (the
vector index reports at most `top_n` hits), the returned records appear in
exactly the hit order reported by the index (re-joining by id never
reorders), and an empty hit list yields the empty list, not an error. -/
theorem c5_search_order_and_bound (docs : List RcaDoc) (hits : List IndexHit)
    (top_n : Nat) (hk : hits.length ≤ top_n) :
    (search_similar_problems docs hits).length ≤ top_n ∧
    List.Sublist ((search_similar_problems docs hits).map (fun r => r.rca_id))
      (hits.map (fun h => h.doc_id)) ∧
    (hits = [] → search_similar_problems docs hits = []) := by
  refine ⟨?_, ?_, ?_⟩
  · exact le_trans (List.length_filterMap_le _ _) hk
  · apply filterMap_map_sublist
    intro h r hfh
    rcases Option.map_eq_some'.mp hfh with ⟨x, hfind, hmk⟩
    have hx := List.find?_some hfind
    rw [← hmk]
    show x.id = h.doc_id
    exact eq_of_beq hx
  · intro h
    rw [h]
    rfl

/-- Witness for C5 at a concrete document table and hit list. -/
theorem c5_search_order_and_bound_witness :
    (search_similar_problems
      [RcaDoc.mk 1 "f1" "g" "p" [] [] [] [] "c" "h1" 0 0]
      [IndexHit.mk 2 ((1 : ℚ) / 2), IndexHit.mk 1 ((3 : ℚ) / 4)]).length ≤ 5 := by
  exact (c5_search_order_and_bound
    [RcaDoc.mk 1 "f1" "g" "p" [] [] [] [] "c" "h1" 0 0]
    [IndexHit.mk 2 ((1 : ℚ) / 2), IndexHit.mk 1 ((3 : ℚ) / 4)]
    5 (by decide)).1

/-- C8: `get_query_intent` returns the technical label exactly when the
substring `technical_problem_solving` occurs in the lower-cased, stripped
model response, returns the general label otherwise, and degrades to the
general label instead of propagating a generation error. -/
theorem c8_intent_router_spec :
    (∀ e, get_query_intent (Except.error e) = "general_knowledge_query") ∧
    (∀ t, get_query_intent (Except.ok t) = "technical_problem_solving" ↔
      containsSub "technical_problem_solving" (pyStrip (pyLower t)) = true) ∧
    (∀ t, get_query_intent (Except.ok t) ≠ "technical_problem_solving" →
      get_query_intent (Except.ok t) = "general_knowledge_query") := by
  have hok : ∀ t : String, get_query_intent (Except.ok t) =
      (if containsSub "technical_problem_solving" (pyStrip (pyLower t)) then
        "technical_problem_solving" else "general_knowledge_query") :=
    fun _ => rfl
  have hne : ("general_knowledge_query" : String) ≠
      "technical_problem_solving" := by decide
  refine ⟨fun e => rfl, fun t => ?_, fun t h => ?_⟩
  · rw [hok t]
    by_cases hc :
        containsSub "technical_problem_solving" (pyStrip (pyLower t)) = true
    · rw [if_pos hc]
      exact ⟨fun _ => hc, fun _ => rfl⟩
    · rw [if_neg hc]
      exact ⟨fun hx => absurd hx hne, fun hx => absurd hx hc⟩
  · rw [hok t] at h ⊢
    by_cases hc :
        containsSub "technical_problem_solving" (pyStrip (pyLower t)) = true
    · exact absurd (if_pos hc) h
    · rw [if_neg hc]

/-- Witness for C8 at concrete responses. -/
theorem c8_intent_router_spec_witness :
    get_query_intent (Except.error "generation failed") =
      "general_knowledge_query" ∧
    get_query_intent (Except.ok " TECHNICAL_PROBLEM_SOLVING ") =
      "technical_problem_solving" := by
  exact ⟨c8_intent_router_spec.1 "generation failed",
    (c8_intent_router_spec.2.1 " TECHNICAL_PROBLEM_SOLVING ").mpr (by decide)⟩

/-- C9: `generate_solution_recommendation` on an empty similar-RCA list
returns the fixed no-similar-problems message and performs no model call. -/
theorem c9_empty_results_fixed_message (generate : String → String)
    (current_problem : String) :
    generate_solution_recommendation generate current_problem [] =
      (noSimilarMsg, false) := rfl

/-- C1: refuted on the code as written.  The schema declares `ON DELETE
CASCADE` and the comment in `delete_chat_session` relies on it, but the
stock `sqlite3` connection leaves SQLite's `foreign_keys` pragma at its
default (off) and the code never enables it, so deleting a session keeps
every message of that session: an orphan message referencing the deleted
session remains. -/
theorem c1_delete_session_leaves_orphan_message :
    delete_chat_session kbFix "s1" =
      ChatKB.mk [] [ChatMessage.mk 1 "s1" "user" "hello" none 0] 2 ∧
    (∀ s ∈ (delete_chat_session kbFix "s1").sessions, s.id ≠ "s1") ∧
    ChatMessage.mk 1 "s1" "user" "hello" none 0 ∈
      (delete_chat_session kbFix "s1").messages := by
  refine ⟨rfl, ?_, ?_⟩ <;> decide

/-- C7: `add_chat_message` inserts the message and bumps the owning
session's `updated_at` to `now` in one transaction; under a monotone clock
(`s.updated_at ≤ now`) the new `updated_at` is at least the previous value;
the only committed outcome is the whole transaction body, and a storage
failure commits neither statement (the connection rolls back). -/
theorem c7_append_message_transaction (kb : ChatKB)
    (sid mtype content : String) (rcas : Option String) (now : Nat)
    (s : ChatSession) (hs : s ∈ kb.sessions) (hid : s.id = sid)
    (hclock : s.updated_at ≤ now) :
    (∃ kb', add_chat_message false kb sid mtype content rcas now =
        Except.ok kb' ∧
      ChatMessage.mk kb.nextMsgId sid mtype content rcas now ∈
        kb'.messages ∧
      ∃ s', s' ∈ kb'.sessions ∧ s'.id = s.id ∧ s'.updated_at = now ∧
        s.updated_at ≤ s'.updated_at) ∧
    (∀ fault kb',
      add_chat_message fault kb sid mtype content rcas now = Except.ok kb' →
      kb' = add_chat_message_body kb sid mtype content rcas now) ∧
    (add_chat_message true kb sid mtype content rcas now =
      Except.error "storage failure: transaction rolled back") := by
  refine ⟨⟨add_chat_message_body kb sid mtype content rcas now, rfl, ?_, ?_⟩,
    ?_, rfl⟩
  · show ChatMessage.mk kb.nextMsgId sid mtype content rcas now ∈
      kb.messages ++ [ChatMessage.mk kb.nextMsgId sid mtype content rcas now]
    exact List.mem_append_right _ (List.mem_singleton.mpr rfl)
  · refine ⟨{ s with updated_at := now }, ?_, rfl, rfl, hclock⟩
    show ({ s with updated_at := now } : ChatSession) ∈
      touchSession kb.sessions sid now
    have hb : (s.id == sid) = true := by
      rw [hid]
      exact beq_self_eq_true sid
    have hval : (fun x : ChatSession =>
        if x.id == sid then { x with updated_at := now } else x) s =
        { s with updated_at := now } := if_pos hb
    exact hval ▸ List.mem_map_of_mem _ hs
  · intro fault kb' h
    cases fault with
    | false => exact (Except.ok.inj h).symm
    | true => exact absurd h (by simp [add_chat_message])

/-- Witness for C7: appending to the fixture session. -/
theorem c7_append_message_transaction_witness :
    ∃ kb', add_chat_message false kbFix "s1" "user" "hi" none 5 =
        Except.ok kb' ∧
      ChatMessage.mk kbFix.nextMsgId "s1" "user" "hi" none 5 ∈
        kb'.messages ∧
      ∃ s', s' ∈ kb'.sessions ∧ s'.id = (ChatSession.mk "s1" "t" 0 0).id ∧
        s'.updated_at = 5 ∧
        (ChatSession.mk "s1" "t" 0 0).updated_at ≤ s'.updated_at :=
  (c7_append_message_transaction kbFix "s1" "user" "hi" none 5
    (ChatSession.mk "s1" "t" 0 0) (by decide) rfl (by decide)).1

/-- C2 counterexample: with a store that raises while persisting `blobA`'s
document (and a successful extraction, so the persist stage is reached), the
sync run does not abort: it returns normally, the store failure is counted
under `errors` exactly like an extraction failure, and the following blob is
still processed. -/
theorem c2_counterexample_store_error_is_caught :
    envC2.storeFailsAt blobA = true ∧
    envC2.extract blobA = some rdFix ∧
    lookupHash (existingOf []) (basename blobA.name) = none ∧
    sync_gcs_files envC2 7 [blobA, blobB] [] 1 [] =
      Except.ok (SyncState.mk
        [RcaDoc.mk 1 "b.txt" "b.txt" "projB" ["p1"] ["s1"] ["r1"] ["l1"]
          "content b" "hb" 7 7]
        2 [VecEntry.mk 1 [1, 0] "b.txt" "projB"] (Stats.mk 1 0 0 1)
        ["a.txt", "b.txt"] ["b.txt"]) :=
  ⟨rfl, rfl, rfl, rfl⟩

/-- C2 as amended: a store-layer error raised while persisting a document is
caught by the same per-document handler as extraction failures — it is
counted under `errors`, leaves that document's tables untouched, and the run
continues with the remaining blobs; only a store error raised before the
loop, while loading the filename-hash snapshot, propagates and aborts the
run. -/
theorem c2_amended_store_error_caught_per_document (env : SyncEnv)
    (existing : List (String × String)) (now : Nat) (st : SyncState)
    (blob : Blob) (rd : RcaData)
    (hskip : lookupHash existing (basename blob.name) ≠ some blob.md5_hash)
    (hex : env.extract blob = some rd)
    (hsf : env.storeFailsAt blob = true) :
    syncStep env existing now st blob =
      { st with stats := bumpErrors st.stats,
                extractCalls := st.extractCalls ++ [basename blob.name] } ∧
    (∀ rest : List Blob,
      (blob :: rest).foldl (syncStep env existing now) st =
      rest.foldl (syncStep env existing now)
        { st with stats := bumpErrors st.stats,
                  extractCalls := st.extractCalls ++ [basename blob.name] }) ∧
    (∀ blobs docs nid idx, env.loadFails = true →
      sync_gcs_files env now blobs docs nid idx =
        Except.error "store error while loading the filename-hash snapshot")
    := by
  have hstep : syncStep env existing now st blob =
      { st with stats := bumpErrors st.stats,
                extractCalls := st.extractCalls ++ [basename blob.name] } := by
    simp [syncStep, hskip, hex, hsf]
  refine ⟨hstep, fun rest => ?_, fun blobs docs nid idx hl => ?_⟩
  · rw [List.foldl_cons, hstep]
  · simp [sync_gcs_files, hl]

/-- Witness for C2's amended theorem on the fixture environment. -/
theorem c2_amended_store_error_caught_per_document_witness :
    syncStep envC2 [] 7 stFix blobA =
      { stFix with stats := bumpErrors stFix.stats,
                   extractCalls := stFix.extractCalls ++ [basename blobA.name] } :=
  (c2_amended_store_error_caught_per_document envC2 [] 7 stFix blobA rdFix
    (by decide) rfl rfl).1

/-- Any filename the extractor or the embedder was invoked for during one
`syncStep` either was already logged or belongs to this blob, whose hash did
not match the snapshot. -/
theorem syncStep_calls_src (env : SyncEnv) (existing : List (String × String))
    (now : Nat) (st : SyncState) (b : Blob) (fn : String)
    (h : fn ∈ (syncStep env existing now st b).extractCalls ∨
         fn ∈ (syncStep env existing now st b).embedCalls) :
    (fn ∈ st.extractCalls ∨ fn ∈ st.embedCalls) ∨
      (basename b.name = fn ∧
        lookupHash existing (basename b.name) ≠ some b.md5_hash) := by
  by_cases hskip : lookupHash existing (basename b.name) = some b.md5_hash
  · left
    have hs : syncStep env existing now st b =
        { st with stats := bumpSkipped st.stats } := by
      simp [syncStep, hskip]
    rw [hs] at h
    exact h
  · cases hex : env.extract b with
    | none =>
        have hs : syncStep env existing now st b =
            { st with stats := bumpErrors st.stats,
                      extractCalls := st.extractCalls ++ [basename b.name] } := by
          simp [syncStep, hskip, hex]
        rw [hs] at h
        rcases h with h | h
        · rcases List.mem_append.mp h with h | h
          · exact Or.inl (Or.inl h)
          · exact Or.inr ⟨(List.mem_singleton.mp h).symm, hskip⟩
        · exact Or.inl (Or.inr h)
    | some rd =>
        by_cases hsf : env.storeFailsAt b = true
        · have hs : syncStep env existing now st b =
              { st with stats := bumpErrors st.stats,
                        extractCalls := st.extractCalls ++ [basename b.name] } := by
            simp [syncStep, hskip, hex, hsf]
          rw [hs] at h
          rcases h with h | h
          · rcases List.mem_append.mp h with h | h
            · exact Or.inl (Or.inl h)
            · exact Or.inr ⟨(List.mem_singleton.mp h).symm, hskip⟩
          · exact Or.inl (Or.inr h)
        · have hs : syncStep env existing now st b =
              persistDoc env existing now st (basename b.name) rd b := by
            simp [syncStep, hskip, hex, hsf]
          rw [hs] at h
          have hpe : (persistDoc env existing now st (basename b.name) rd
              b).extractCalls = st.extractCalls ++ [basename b.name] := rfl
          have hpm : (persistDoc env existing now st (basename b.name) rd
              b).embedCalls = st.embedCalls ++ [basename b.name] := rfl
          rw [hpe] at h
          rw [hpm] at h
          rcases h with h | h <;> rcases List.mem_append.mp h with h | h
          · exact Or.inl (Or.inl h)
          · exact Or.inr ⟨(List.mem_singleton.mp h).symm, hskip⟩
          · exact Or.inl (Or.inr h)
          · exact Or.inr ⟨(List.mem_singleton.mp h).symm, hskip⟩

/-- Fold version of `syncStep_calls_src` over a whole run. -/
theorem syncFold_calls_src (env : SyncEnv) (existing : List (String × String))
    (now : Nat) :
    ∀ (blobs : List Blob) (st : SyncState) (fn : String),
      (fn ∈ (blobs.foldl (syncStep env existing now) st).extractCalls ∨
       fn ∈ (blobs.foldl (syncStep env existing now) st).embedCalls) →
      (fn ∈ st.extractCalls ∨ fn ∈ st.embedCalls) ∨
        ∃ b, b ∈ blobs ∧ basename b.name = fn ∧
          lookupHash existing (basename b.name) ≠ some b.md5_hash
  | [], _, _, h => Or.inl h
  | b :: bs, st, fn, h => by
    rw [List.foldl_cons] at h
    rcases syncFold_calls_src env existing now bs _ fn h with h1 | h1
    · rcases syncStep_calls_src env existing now st b fn h1 with h2 | h2
      · exact Or.inl h2
      · exact Or.inr ⟨b, List.mem_cons_self b bs, h2.1, h2.2⟩
    · rcases h1 with ⟨b', hb', hrest⟩
      exact Or.inr ⟨b', List.mem_cons_of_mem b hb', hrest⟩

/-- C3: a blob whose hash equals the snapshot hash stored for its filename
is classified `skipped` and nothing else in the state changes; consequently,
over a whole successful run, every extractor or embedding invocation belongs
to a blob whose hash did not match the stored one — unchanged documents
trigger no extraction and no embedding call. -/
theorem c3_unchanged_hash_skipped :
    (∀ env existing now st blob,
      lookupHash existing (basename blob.name) = some blob.md5_hash →
      syncStep env existing now st blob =
        { st with stats := bumpSkipped st.stats }) ∧
    (∀ env now blobs docs nid idx st',
      sync_gcs_files env now blobs docs nid idx = Except.ok st' →
      ∀ fn, fn ∈ st'.extractCalls ∨ fn ∈ st'.embedCalls →
        ∃ b, b ∈ blobs ∧ basename b.name = fn ∧
          lookupHash (existingOf docs) (basename b.name) ≠
            some b.md5_hash) := by
  constructor
  · intro env existing now st blob h
    simp [syncStep, h]
  · intro env now blobs docs nid idx st' hok fn hmem
    by_cases hl : env.loadFails = true
    · exact absurd hok (by simp [sync_gcs_files, hl])
    · have hst : st' = blobs.foldl (syncStep env (existingOf docs) now)
          (SyncState.mk docs nid idx (Stats.mk 0 0 0 0) [] []) := by
        have : sync_gcs_files env now blobs docs nid idx =
            Except.ok (blobs.foldl (syncStep env (existingOf docs) now)
              (SyncState.mk docs nid idx (Stats.mk 0 0 0 0) [] [])) := by
          simp [sync_gcs_files, hl]
        rw [this] at hok
        exact (Except.ok.inj hok).symm
      rw [hst] at hmem
      rcases syncFold_calls_src env (existingOf docs) now blobs _ fn hmem
        with h | h
      · rcases h with h | h <;> exact absurd h (List.not_mem_nil fn)
      · exact h

/-- Witness for C3: an unchanged blob is skipped untouched. -/
theorem c3_unchanged_hash_skipped_witness :
    syncStep envC2 [("b.txt", "hb")] 7 stFix blobB =
      { stFix with stats := bumpSkipped stFix.stats } :=
  c3_unchanged_hash_skipped.1 envC2 [("b.txt", "hb")] 7 stFix blobB (by decide)


/-- Lookup at the head key of the snapshot map. -/
theorem lookupHash_cons_hit (k v : String) (rest : List (String × String)) :
    lookupHash ((k, v) :: rest) k = some v := by
  show (List.find? (fun p => p.1 == k) ((k, v) :: rest)).map
    (fun p => p.2) = some v
  have hpos : ((fun p : String × String => p.1 == k) (k, v)) = true :=
    beq_self_eq_true k
  rw [@List.find?_cons_of_pos (String × String)
    (fun p => p.1 == k) (k, v) rest hpos]
  rfl

/-- Lookup passes over a head entry with a different key. -/
theorem lookupHash_cons_miss (k v k' : String)
    (rest : List (String × String)) (h : k ≠ k') :
    lookupHash ((k, v) :: rest) k' = lookupHash rest k' := by
  show (List.find? (fun p => p.1 == k') ((k, v) :: rest)).map
    (fun p => p.2) = _
  have hneg : ¬ (((fun p : String × String => p.1 == k') (k, v)) = true) :=
    fun hc => h (eq_of_beq hc)
  rw [@List.find?_cons_of_neg (String × String)
    (fun p => p.1 == k') (k, v) rest hneg]
  rfl

/-- The snapshot lookup finds the stored hash of a document present in a
table whose filenames are pairwise distinct (the `UNIQUE` constraint). -/
theorem lookupHash_existingOf {docs : List RcaDoc} {d : RcaDoc}
    (hpw : docs.Pairwise (fun a b => a.filename ≠ b.filename))
    (hd : d ∈ docs) :
    lookupHash (existingOf docs) d.filename = some d.file_hash := by
  induction docs with
  | nil => exact absurd hd (List.not_mem_nil d)
  | cons a l ih =>
    have hcons : existingOf (a :: l) =
        (a.filename, a.file_hash) :: existingOf l := rfl
    rcases List.mem_cons.mp hd with h | h
    · subst h
      rw [hcons, lookupHash_cons_hit]
    · have hne : a.filename ≠ d.filename := (List.pairwise_cons.mp hpw).1 d h
      rw [hcons, lookupHash_cons_miss _ _ _ _ hne]
      exact ih (List.pairwise_cons.mp hpw).2 h

/-- After the conflict-update map, the re-read by filename returns the
updated row of the unique matching document. -/
theorem find?_map_update (r : DocRow) (now : Nat) :
    ∀ {docs : List RcaDoc} {d : RcaDoc},
      docs.Pairwise (fun a b => a.filename ≠ b.filename) → d ∈ docs →
      d.filename = r.filename →
      (docs.map (fun x => if x.filename == r.filename then applyRow x r now
        else x)).find? (fun x => x.filename == r.filename) =
        some (applyRow d r now) := by
  intro docs
  induction docs with
  | nil => intro d _ hd _; exact absurd hd (List.not_mem_nil d)
  | cons a l ih =>
    intro d hpw hd hfn
    rcases List.mem_cons.mp hd with h | h
    · subst h
      rw [List.map_cons]
      have hsel : (if d.filename == r.filename then applyRow d r now else d)
          = applyRow d r now :=
        if_pos (by rw [hfn]; exact beq_self_eq_true _)
      rw [hsel]
      have hpos : ((fun x : RcaDoc => x.filename == r.filename)
          (applyRow d r now)) = true := by
        show (d.filename == r.filename) = true
        rw [hfn]
        exact beq_self_eq_true _
      exact List.find?_cons_of_pos _ hpos
    · have hne : a.filename ≠ d.filename := (List.pairwise_cons.mp hpw).1 d h
      have hner : a.filename ≠ r.filename := fun hc => hne (by rw [hc, hfn])
      rw [List.map_cons]
      have hsel : (if a.filename == r.filename then applyRow a r now else a)
          = a := if_neg (fun hc => hner (eq_of_beq hc))
      rw [hsel]
      have hneg : ¬ (((fun x : RcaDoc => x.filename == r.filename) a)
          = true) := fun hc => hner (eq_of_beq hc)
      rw [@List.find?_cons_of_neg RcaDoc
        (fun x => x.filename == r.filename) a _ hneg]
      exact ih (List.pairwise_cons.mp hpw).2 h hfn

/-- The upserted vector entry is present afterwards. -/
theorem indexUpsert_self_mem (idx : List VecEntry) (e : VecEntry) :
    e ∈ indexUpsert idx e := by
  unfold indexUpsert
  split
  · rename_i h
    rcases List.any_eq_true.mp h with ⟨x, hx, hxe⟩
    refine List.mem_map.mpr ⟨x, hx, ?_⟩
    rw [if_pos hxe]
  · exact List.mem_append_right _ (List.mem_singleton.mpr rfl)

/-- After an index upsert, every entry carrying the upserted id is the
upserted entry: the old entry under that id was replaced. -/
theorem indexUpsert_unique (idx : List VecEntry) (e : VecEntry) :
    ∀ x ∈ indexUpsert idx e, x.doc_id = e.doc_id → x = e := by
  unfold indexUpsert
  split
  · intro x hx hid
    rcases List.mem_map.mp hx with ⟨y, hy, hyx⟩
    by_cases hc : (y.doc_id == e.doc_id) = true
    · rw [if_pos hc] at hyx
      exact hyx.symm
    · rw [if_neg hc] at hyx
      subst hyx
      exact absurd (by rw [hid]; exact beq_self_eq_true _) hc
  · rename_i hany
    intro x hx hid
    rcases List.mem_append.mp hx with h | h
    · exact absurd
        (List.any_eq_true.mpr ⟨x, h, by rw [hid]; exact beq_self_eq_true _⟩)
        hany
    · exact List.mem_singleton.mp h

/-- C10: on an upsert conflict (the filename already exists), the update
keeps the row's `id`, `filename` and `created_at` and overwrites exactly
`gcs_path`, `project_name`, `problems`, `solutions`, `root_causes`,
`lessons_learned`, `full_content`, `file_hash` and `updated_at`; rows with
other filenames are untouched and no new id is allocated. -/
theorem c10_upsert_conflict_frame (docs : List RcaDoc) (nextId : Nat)
    (r : DocRow) (now : Nat) (d : RcaDoc) (hd : d ∈ docs)
    (hfn : d.filename = r.filename) :
    (upsertDocument docs nextId r now).2 = nextId ∧
    (upsertDocument docs nextId r now).1 = docs.map
      (fun x => if x.filename == r.filename then applyRow x r now else x) ∧
    applyRow d r now ∈ (upsertDocument docs nextId r now).1 ∧
    (∀ x ∈ docs, x.filename ≠ r.filename →
      x ∈ (upsertDocument docs nextId r now).1) ∧
    (applyRow d r now).id = d.id ∧
    (applyRow d r now).filename = d.filename ∧
    (applyRow d r now).created_at = d.created_at ∧
    (applyRow d r now).gcs_path = r.gcs_path ∧
    (applyRow d r now).project_name = r.project_name ∧
    (applyRow d r now).problems = r.problems ∧
    (applyRow d r now).solutions = r.solutions ∧
    (applyRow d r now).root_causes = r.root_causes ∧
    (applyRow d r now).lessons_learned = r.lessons_learned ∧
    (applyRow d r now).full_content = r.full_content ∧
    (applyRow d r now).file_hash = r.file_hash ∧
    (applyRow d r now).updated_at = now := by
  have hany : docs.any (fun x => x.filename == r.filename) = true :=
    List.any_eq_true.mpr ⟨d, hd, by rw [hfn]; exact beq_self_eq_true _⟩
  have hup : upsertDocument docs nextId r now = (docs.map
      (fun x => if x.filename == r.filename then applyRow x r now else x),
      nextId) := by
    simp [upsertDocument, hany]
  refine ⟨by rw [hup], by rw [hup], ?_, ?_, rfl, rfl, rfl, rfl, rfl, rfl,
    rfl, rfl, rfl, rfl, rfl, rfl⟩
  · rw [hup]
    have hval : (if d.filename == r.filename then applyRow d r now else d) =
        applyRow d r now :=
      if_pos (by rw [hfn]; exact beq_self_eq_true _)
    exact hval ▸ List.mem_map_of_mem
      (fun x => if x.filename == r.filename then applyRow x r now else x) hd
  · intro x hx hne
    rw [hup]
    have hval : (if x.filename == r.filename then applyRow x r now else x) =
        x := if_neg (fun hc => hne (eq_of_beq hc))
    exact hval ▸ List.mem_map_of_mem
      (fun y => if y.filename == r.filename then applyRow y r now else y) hx

/-- Witness for C10: upserting the fixture row over its existing
document allocates no new id. -/
theorem c10_upsert_conflict_frame_witness :
    (upsertDocument [docB] 5 (rowOfData blobB "b.txt" rdFix) 9).2 = 5 :=
  (c10_upsert_conflict_frame [docB] 5 (rowOfData blobB "b.txt" rdFix) 9 docB
    (by decide) rfl).1

/-- C6: re-syncing an existing filename with a changed hash updates the row
in place: the run takes the persist path, the document keeps its `id` and
`created_at`, its derived fields and hash are overwritten, the vector-index
entry under that id is replaced by the fresh embedding, the blob is
classified `updated` (not `processed`), and exactly one extraction and one
embedding call are logged for it. -/
theorem c6_changed_hash_updates_in_place (env : SyncEnv) (now : Nat)
    (st : SyncState) (blob : Blob) (rd : RcaData) (d : RcaDoc)
    (hpw : st.docs.Pairwise (fun a b => a.filename ≠ b.filename))
    (hd : d ∈ st.docs) (hfn : d.filename = basename blob.name)
    (hhash : d.file_hash ≠ blob.md5_hash)
    (hex : env.extract blob = some rd)
    (hsf : env.storeFailsAt blob = false) :
    syncStep env (existingOf st.docs) now st blob = SyncState.mk
      (st.docs.map (fun x => if x.filename == basename blob.name then
        applyRow x (rowOfData blob (basename blob.name) rd) now else x))
      st.nextDocId
      (indexUpsert st.index (VecEntry.mk d.id
        (env.embed (embedding_text rd.extracted_data))
        (basename blob.name) rd.extracted_data.project_name))
      (bumpUpdated st.stats)
      (st.extractCalls ++ [basename blob.name])
      (st.embedCalls ++ [basename blob.name]) ∧
    applyRow d (rowOfData blob (basename blob.name) rd) now ∈
      (syncStep env (existingOf st.docs) now st blob).docs ∧
    (applyRow d (rowOfData blob (basename blob.name) rd) now).id = d.id ∧
    (applyRow d (rowOfData blob (basename blob.name) rd) now).created_at =
      d.created_at ∧
    (applyRow d (rowOfData blob (basename blob.name) rd) now).file_hash =
      blob.md5_hash ∧
    VecEntry.mk d.id (env.embed (embedding_text rd.extracted_data))
      (basename blob.name) rd.extracted_data.project_name ∈
      (syncStep env (existingOf st.docs) now st blob).index ∧
    (∀ x ∈ (syncStep env (existingOf st.docs) now st blob).index,
      x.doc_id = d.id → x = VecEntry.mk d.id
        (env.embed (embedding_text rd.extracted_data))
        (basename blob.name) rd.extracted_data.project_name) := by
  have hlk : lookupHash (existingOf st.docs) (basename blob.name) =
      some d.file_hash := by
    rw [← hfn]
    exact lookupHash_existingOf hpw hd
  have hskip : ¬(lookupHash (existingOf st.docs) (basename blob.name) =
      some blob.md5_hash) := by
    rw [hlk]
    intro hc
    exact hhash (Option.some.inj hc)
  have hstep : syncStep env (existingOf st.docs) now st blob =
      persistDoc env (existingOf st.docs) now st (basename blob.name) rd
        blob := by
    simp [syncStep, hskip, hex, hsf]
  have hany : st.docs.any (fun x => x.filename ==
      (rowOfData blob (basename blob.name) rd).filename) = true :=
    List.any_eq_true.mpr ⟨d, hd,
      show (d.filename == basename blob.name) = true by
        rw [hfn]
        exact beq_self_eq_true _⟩
  have hup : upsertDocument st.docs st.nextDocId
      (rowOfData blob (basename blob.name) rd) now =
      (st.docs.map (fun x => if x.filename == basename blob.name then
        applyRow x (rowOfData blob (basename blob.name) rd) now else x),
       st.nextDocId) := by
    unfold upsertDocument
    rw [if_pos hany]
    rfl
  have hfind : ((st.docs.map (fun x =>
      if x.filename == basename blob.name then
        applyRow x (rowOfData blob (basename blob.name) rd) now
      else x)).find? (fun x => x.filename == basename blob.name)) =
      some (applyRow d (rowOfData blob (basename blob.name) rd) now) :=
    find?_map_update (rowOfData blob (basename blob.name) rd) now hpw hd hfn
  have hanyE : (existingOf st.docs).any
      (fun p => p.1 == basename blob.name) = true :=
    List.any_eq_true.mpr ⟨(d.filename, d.file_hash),
      List.mem_map_of_mem _ hd,
      show (d.filename == basename blob.name) = true by
        rw [hfn]
        exact beq_self_eq_true _⟩
  have hpersist : persistDoc env (existingOf st.docs) now st
      (basename blob.name) rd blob = SyncState.mk
      (st.docs.map (fun x => if x.filename == basename blob.name then
        applyRow x (rowOfData blob (basename blob.name) rd) now else x))
      st.nextDocId
      (indexUpsert st.index (VecEntry.mk d.id
        (env.embed (embedding_text rd.extracted_data))
        (basename blob.name) rd.extracted_data.project_name))
      (bumpUpdated st.stats)
      (st.extractCalls ++ [basename blob.name])
      (st.embedCalls ++ [basename blob.name]) := by
    simp only [persistDoc, hup, hfind, hanyE, if_true]
    rfl
  have hmain : syncStep env (existingOf st.docs) now st blob = SyncState.mk
      (st.docs.map (fun x => if x.filename == basename blob.name then
        applyRow x (rowOfData blob (basename blob.name) rd) now else x))
      st.nextDocId
      (indexUpsert st.index (VecEntry.mk d.id
        (env.embed (embedding_text rd.extracted_data))
        (basename blob.name) rd.extracted_data.project_name))
      (bumpUpdated st.stats)
      (st.extractCalls ++ [basename blob.name])
      (st.embedCalls ++ [basename blob.name]) := by
    rw [hstep, hpersist]
  refine ⟨hmain, ?_, rfl, rfl, rfl, ?_, ?_⟩
  · rw [hmain]
    have hval : (if d.filename == basename blob.name then
        applyRow d (rowOfData blob (basename blob.name) rd) now else d) =
        applyRow d (rowOfData blob (basename blob.name) rd) now :=
      if_pos (by rw [hfn]; exact beq_self_eq_true _)
    exact hval ▸ List.mem_map_of_mem
      (fun x => if x.filename == basename blob.name then
        applyRow x (rowOfData blob (basename blob.name) rd) now else x) hd
  · rw [hmain]
    exact indexUpsert_self_mem _ _
  · rw [hmain]
    exact fun x hx hid => indexUpsert_unique _ _ x hx hid

/-- Witness for C6: the updated fixture row keeps its id. -/
theorem c6_changed_hash_updates_in_place_witness :
    (applyRow docA (rowOfData blobA (basename blobA.name) rdFix) 9).id =
      docA.id :=
  (c6_changed_hash_updates_in_place envLoadFail 9
    (SyncState.mk [docA] 5 [] (Stats.mk 0 0 0 0) [] []) blobA rdFix docA
    (by simp) (by decide) (by decide) (by decide) rfl rfl).2.2.1
